import Mathlib

/-
Verification development for the colorls-rs directory lister
(src/src/main.rs). The layout engine, attribute resolver and
display-width predictor are shallowly embedded below. Rust `usize`
values are modelled as `Nat` (all quantities involved are small and
non-negative; the two `as i64` casts in `PlanningFormatter::format`
are on non-negative values and are dropped). Every Rust operation
that can panic (indexing `v[0]` on an empty vector, division or
modulus by zero, `String::remove(0)` on an empty string, a missing
`"file"`/`"folder"` default key under `.unwrap()`) is modelled by
returning `none` from an `Option`-valued function.
-/

namespace ColorLs

/-- Embeds the `ColorType` enum (main.rs lines 48-67). -/
inductive ColorType : Type where
  | UnrecognizedFile
  | RecognizedFile
  | Dir
  | DeadLink
  | Link
  | WriteC
  | ReadC
  | Exec
  | NoAccess
  | DayOld
  | HourOld
  | NoModifier
  | Report
  | User
  | Tree
  | Empty
  | Normal
deriving DecidableEq

/-- Embeds the `RealColor` enum (main.rs lines 111-122). -/
inductive RealColor : Type where
  | Yellow
  | Green
  | Blue
  | Red
  | Cyan
  | Magenta
  | Grey
  | White
  | Black
deriving DecidableEq

/-- Embeds `struct Attr` (main.rs lines 166-170): icon glyph plus color class. -/
structure Attr : Type where
  icon : List Char
  color : ColorType
deriving DecidableEq

/-- Embeds `struct Config` (main.rs lines 37-46). The `HashMap<String, String>`
tables become association lists; the boxed `printer` field is passed separately
as a `PrinterKind` argument to each function that uses it. -/
structure Config : Type where
  files : List (List Char × List Char)
  file_aliases : List (List Char × List Char)
  folders : List (List Char × List Char)
  folder_aliases : List (List Char × List Char)
  colors : List (ColorType × RealColor)
  maxWidth : Nat
deriving DecidableEq

/-- The default lookup key for files, `"file"` (main.rs line 175). -/
def fileDefaultKey : List Char := "file".toList

/-- The default lookup key for folders, `"folder"` (main.rs line 189). -/
def folderDefaultKey : List Char := "folder".toList

/-- The default-file fallback of `get_file_attr` (main.rs line 175):
`conf.files.get("file").unwrap()` with color class `UnrecognizedFile`;
`none` models the `.unwrap()` panic when the `"file"` key is missing. -/
def defaultFileAttr (conf : Config) : Option Attr :=
  match conf.files.lookup fileDefaultKey with
  | some icon => some ⟨icon, ColorType.UnrecognizedFile⟩
  | none => none

/-- Embeds `get_file_attr` (main.rs lines 172-177). -/
def get_file_attr (conf : Config) (suffix : List Char) : Option Attr :=
  match conf.files.lookup suffix with
  | some icon => some ⟨icon, ColorType.RecognizedFile⟩
  | none => defaultFileAttr conf

/-- Embeds `get_file_attr_alias` (main.rs lines 179-184): one lookup in the
alias table, then a direct `get_file_attr` lookup of the result. -/
def get_file_attr_alias (conf : Config) (suffix : List Char) : Option Attr :=
  match conf.file_aliases.lookup suffix with
  | some target => get_file_attr conf target
  | none => get_file_attr conf suffix

/-- Embeds `get_folder_attr` (main.rs lines 186-191); `none` models the
`.unwrap()` panic when the `"folder"` default key is missing. -/
def get_folder_attr (conf : Config) (name : List Char) : Option Attr :=
  match conf.folders.lookup name with
  | some icon => some ⟨icon, ColorType.Dir⟩
  | none =>
    match conf.folders.lookup folderDefaultKey with
    | some icon => some ⟨icon, ColorType.Dir⟩
    | none => none

/-- Embeds `get_folder_attr_alias` (main.rs lines 193-198). -/
def get_folder_attr_alias (conf : Config) (name : List Char) : Option Attr :=
  match conf.folder_aliases.lookup name with
  | some target => get_folder_attr conf target
  | none => get_folder_attr conf name

/-- Embeds `filename_without_leading_dot` (main.rs lines 200-204):
`String::remove(0)` deletes the first character of the file name,
whatever that character is; on an empty name `remove(0)` panics (`none`). -/
def filename_without_leading_dot : List Char → Option (List Char)
  | [] => none
  | _ :: rest => some rest

/-- The characters after the last `.` of a file name; `none` when the
name contains no `.` at all. -/
def afterLastDot : List Char → Option (List Char)
  | [] => none
  | c :: cs =>
    match afterLastDot cs with
    | some e => some e
    | none => if c = '.' then some cs else none

/-- Embeds `std::path::Path::extension` as used on a file name (main.rs
line 213). Rust semantics: the portion after the last `.` of the file
name, except that the result is `none` when there is no `.`, when the
name is exactly `".."`, or when the text before the last `.` is empty —
the last `.` is the first character, i.e. a leading-dot name with no
further dot, such as `".bashrc"`. -/
def extension (f : List Char) : Option (List Char) :=
  match f with
  | [] => none
  | c :: cs =>
    if (c :: cs : List Char) = [ '.', '.' ] then none
    else if c = '.' ∧ ¬ ('.' ∈ cs) then none
    else afterLastDot (c :: cs)

/-- The lookup-key computation of the file branch of `get_attr`
(main.rs lines 211-214), factored out of the branch:
`path.extension().unwrap_or(filename_without_leading_dot(path))`. -/
def fileKey (fileName : List Char) : Option (List Char) :=
  match filename_without_leading_dot fileName with
  | none => none
  | some fwld => some ((extension fileName).getD fwld)

/-- A filesystem path as `get_attr` observes it: its file name and
whether it is a directory (main.rs lines 206-216 query only these). -/
structure FsPath : Type where
  fileName : List Char
  isDir : Bool
deriving DecidableEq

/-- Embeds `get_attr` (main.rs lines 206-216). -/
def get_attr (conf : Config) (p : FsPath) : Option Attr :=
  if p.isDir then get_folder_attr_alias conf p.fileName
  else
    match fileKey p.fileName with
    | none => none
    | some key => get_file_attr_alias conf key

/-- Combining-mark predicate used to model extended grapheme clusters:
true on the Unicode ranges Combining Diacritical Marks (U+0300-U+036F and
the Extended/Supplement/For-Symbols blocks), Variation Selectors
(U+FE00-U+FE0F) and Combining Half Marks (U+FE20-U+FE2F). These cover the
character classes exercised by the repository's `strlen` tests. -/
def isCombining (c : Char) : Bool :=
  (0x300 ≤ c.toNat && c.toNat ≤ 0x36F) ||
  (0x1AB0 ≤ c.toNat && c.toNat ≤ 0x1AFF) ||
  (0x20D0 ≤ c.toNat && c.toNat ≤ 0x20FF) ||
  (0xFE00 ≤ c.toNat && c.toNat ≤ 0xFE0F) ||
  (0xFE20 ≤ c.toNat && c.toNat ≤ 0xFE2F)

/-- Embeds `strlen` (main.rs lines 325-327), i.e.
`s.graphemes(true).count()` of the unicode_segmentation crate (an
external dependency), modelled for the code points above: the first
character always opens a cluster, and every later character opens a new
cluster exactly when it is not a combining mark. -/
def strlen : List Char → Nat
  | [] => 0
  | _ :: rest => 1 + (rest.filter (fun c => !(isCombining c))).length

/-- Embeds `struct Entry` (main.rs lines 235-239), together with the file
name that `short_name` extracts from its path (main.rs lines 303-305):
`path` holds the characters of `path.display()`, `fileName` the characters
of `path.file_name()`. -/
structure Entry : Type where
  path : List Char
  fileName : List Char
  attr : Attr
deriving DecidableEq

/-- Embeds `short_name` (main.rs lines 303-305). -/
def short_name (e : Entry) : List Char := e.fileName

/-- The two `EntryPrinter` implementations, `ShortFormat` and `LongFormat`
(main.rs lines 280-323), as a closed variant. -/
inductive PrinterKind : Type where
  | short
  | long
deriving DecidableEq

/-- Embeds the `predict` methods: `ShortFormat::predict` (main.rs lines
320-322) is `strlen(short_name(entry)) + 3`; `LongFormat::predict`
(main.rs lines 295-297) is `strlen(path.display()) + 2`. -/
def printerPredict (p : PrinterKind) (e : Entry) : Nat :=
  match p with
  | PrinterKind.short => strlen (short_name e) + 3
  | PrinterKind.long => strlen e.path + 2

/-- Embeds `color_for` (main.rs lines 220-233) up to the palette: the
`ColorType → RealColor` table lookup with `Grey` as default
(`unwrap_or(&RealColor::Grey)`); the final mapping to termion escape
codes is terminal-device output and is left at the `RealColor` level. -/
def color_for (conf : Config) (c : ColorType) : RealColor :=
  (conf.colors.lookup c).getD RealColor.Grey

/-- Embeds `struct EntryPrinterConfig` (main.rs lines 271-273). -/
structure EntryPrinterConfig : Type where
  width : Nat
deriving DecidableEq

/-- A rendered cell: the pieces concatenated by the `format!` calls of
`ShortFormat::format` and `LongFormat::format` (icon, color escape,
left-justified padded text, reset). The color escape and reset are
represented by the `RealColor` chosen by `color_for`. -/
structure Cell : Type where
  icon : List Char
  fg : RealColor
  text : List Char
deriving DecidableEq

/-- Left-justified padding to a minimum width, as Rust's
`format!("{name:<width$}")` performs on a string. -/
def padTo (s : List Char) (w : Nat) : List Char :=
  s ++ List.replicate (w - s.length) ' '

/-- Embeds the `format` methods of `ShortFormat` (main.rs lines 308-318)
and `LongFormat` (main.rs lines 283-293). Both pad the text to
`ep_config.width - 2`; the long format inserts one space after the icon. -/
def printerFormat (p : PrinterKind) (conf : Config) (ep : EntryPrinterConfig)
    (e : Entry) : Cell :=
  match p with
  | PrinterKind.short =>
    ⟨e.attr.icon, color_for conf e.attr.color, padTo (short_name e) (ep.width - 2)⟩
  | PrinterKind.long =>
    ⟨e.attr.icon ++ [ ' ' ], color_for conf e.attr.color, padTo e.path (ep.width - 2)⟩

/-- The loop body of `as_rows` (main.rs lines 368-374): push each element
onto the current row and emit the row when `i % row_cap == row_cap - 1`.
The final partial row is never pushed, exactly as in the source, which
returns `rows` without flushing `row`. -/
def asRowsGo {α : Type _} (cap : Nat) : Nat → List α → List α → List (List α)
  | _, _, [] => []
  | i, row, x :: xs =>
    if i % cap = cap - 1 then (row ++ [x]) :: asRowsGo cap (i + 1) [] xs
    else asRowsGo cap (i + 1) (row ++ [x]) xs

/-- Embeds `as_rows` (main.rs lines 365-376). With `row_cap = 0` the
function panics (`Vec::with_capacity(names.len() / row_cap + 1)` divides
by zero, as would `i % row_cap`), modelled by `none`. -/
def as_rows {α : Type _} (names : List α) (cap : Nat) : Option (List (List α)) :=
  if cap = 0 then none
  else some (asRowsGo cap 0 [] names)

/-- One row of the column-width accumulation loop of `is_valid`
(main.rs lines 382-384): `col_widths[i] = max(col_widths[i], *s)`.
A row longer than `col_widths` indexes out of bounds (`none`). -/
def updateCols : List Nat → List Nat → Option (List Nat)
  | cols, [] => some cols
  | [], _ :: _ => none
  | c :: cs, s :: ss =>
    match updateCols cs ss with
    | none => none
    | some rest => some (max c s :: rest)

/-- The outer `for r in out` loop of `is_valid` over all rows. -/
def foldCols : List Nat → List (List Nat) → Option (List Nat)
  | cols, [] => some cols
  | cols, r :: rs =>
    match updateCols cols r with
    | none => none
    | some cols2 => foldCols cols2 rs

/-- Embeds `is_valid` (main.rs lines 379-389): `vec![0; out[0].len()]`
indexes `out[0]`, which panics on an empty row list (`none`); then the
per-column maxima are summed and compared strictly against `max_width`. -/
def is_valid (out : List (List Nat)) (maxW : Nat) : Option Bool :=
  match out with
  | [] => none
  | r0 :: _ =>
    match foldCols (List.replicate r0.length 0) out with
    | none => none
    | some cols => some (decide (cols.foldl (fun a b => a + b) 0 < maxW))

/-- Embeds `is_valid_as_rows` (main.rs lines 400-402):
`is_valid(as_rows(predicted widths, row_cap), config.max_width)`. -/
def is_valid_as_rows (conf : Config) (p : PrinterKind) (names : List Entry)
    (cap : Nat) : Option Bool :=
  match as_rows (names.map (printerPredict p)) cap with
  | none => none
  | some out => is_valid out conf.maxWidth

/-- One row of the column-width loop of `format_as_rows` (main.rs lines
407-414): `if predicted > col_widths[i] { col_widths[i] = predicted }`,
with an out-of-bounds index modelled by `none`. -/
def updateColsPred (p : PrinterKind) : List Nat → List Entry → Option (List Nat)
  | cols, [] => some cols
  | [], _ :: _ => none
  | c :: cs, e :: es =>
    match updateColsPred p cs es with
    | none => none
    | some rest =>
      some ((if printerPredict p e > c then printerPredict p e else c) :: rest)

/-- The outer `for r in &rows` loop of `format_as_rows`. -/
def foldColsPred (p : PrinterKind) : List Nat → List (List Entry) → Option (List Nat)
  | cols, [] => some cols
  | cols, r :: rs =>
    match updateColsPred p cols r with
    | none => none
    | some cols2 => foldColsPred p cols2 rs

/-- Renders one row of `format_as_rows` (main.rs lines 417-421):
`config.printer.format(config, &ep_configs[i], s)` for each entry, with
the `ep_configs[i]` out-of-bounds index modelled by `none`. -/
def renderRow (conf : Config) (p : PrinterKind) :
    List Nat → List Entry → Option (List Cell)
  | _, [] => some []
  | [], _ :: _ => none
  | w :: ws, e :: es =>
    match renderRow conf p ws es with
    | none => none
    | some rest => some (printerFormat p conf ⟨w⟩ e :: rest)

/-- The flat `out` vector of `format_as_rows`: all rows rendered in order. -/
def renderAll (conf : Config) (p : PrinterKind) (cols : List Nat) :
    List (List Entry) → Option (List Cell)
  | [] => some []
  | r :: rs =>
    match renderRow conf p cols r, renderAll conf p cols rs with
    | some cellsR, some rest => some (cellsR ++ rest)
    | _, _ => none

/-- Embeds `format_as_rows` (main.rs lines 404-423): partition into rows,
index `rows[0]` (panics on an empty row list, `none`), accumulate
per-column widths over all rows, render every cell with its column's
`EntryPrinterConfig`, and re-partition the flat output with `as_rows`. -/
def format_as_rows (conf : Config) (p : PrinterKind) (names : List Entry)
    (cap : Nat) : Option (List (List Cell)) :=
  match as_rows names cap with
  | none => none
  | some rows =>
    match rows with
    | [] => none
    | r0 :: _ =>
      match foldColsPred p (List.replicate r0.length 0) rows with
      | none => none
      | some cols =>
        match renderAll conf p cols rows with
        | none => none
        | some out => as_rows out cap

/-- Embeds `max_width` (main.rs lines 425-434): the maximum predicted
width over all entries, starting from 0. -/
def max_width (p : PrinterKind) (names : List Entry) : Nat :=
  names.foldl
    (fun width l => if printerPredict p l > width then printerPredict p l else width) 0

/-- Embeds `MIN_FORMAT_ENTRY_LENGTH` (main.rs line 436). -/
def MIN_FORMAT_ENTRY_LENGTH : Nat := 5

/-- The `min_rows` local of `PlanningFormatter::format` (main.rs line 443):
`config.max_width / (width + 1)`. -/
def min_rows (conf : Config) (p : PrinterKind) (names : List Entry) : Nat :=
  conf.maxWidth / (max_width p names + 1)

/-- The `max_rows` local of `PlanningFormatter::format` (main.rs line 444):
`config.max_width / MIN_FORMAT_ENTRY_LENGTH`. -/
def max_rows (conf : Config) : Nat :=
  conf.maxWidth / MIN_FORMAT_ENTRY_LENGTH

/-- Helper for `descRange`: the list `[lo + n, lo + n - 1, ..., lo + 1]`. -/
def descRangeAux (lo : Nat) : Nat → List Nat
  | 0 => []
  | n + 1 => (lo + (n + 1)) :: descRangeAux lo n

/-- Embeds `num_iter::range_step(max_rows, min_rows, -1)` (main.rs line
445): the descending candidates `hi, hi - 1, ...` while strictly greater
than `lo` (the stop value is exclusive), empty when `hi ≤ lo`. -/
def descRange (hi lo : Nat) : List Nat := descRangeAux lo (hi - lo)

/-- The candidate loop of `PlanningFormatter::format` (main.rs lines
445-449), returning the selected row capacity instead of the formatted
grid: the first candidate whose validity check returns true, the
fallback `minR` after an exhausted search, `none` when a validity check
panics. -/
def planLoop (valid : Nat → Option Bool) (minR : Nat) : List Nat → Option Nat
  | [] => some minR
  | cap :: rest =>
    match valid cap with
    | none => none
    | some true => some cap
    | some false => planLoop valid minR rest

/-- The row capacity selected by `PlanningFormatter::format` (main.rs
lines 440-452). -/
def planRowCap (conf : Config) (p : PrinterKind) (names : List Entry) : Option Nat :=
  planLoop (is_valid_as_rows conf p names) (min_rows conf p names)
    (descRange (max_rows conf) (min_rows conf p names))

/-- Embeds `PlanningFormatter::format` (main.rs lines 440-452): the source
calls `format_as_rows` directly at the point where a capacity is selected
(inside the loop on success, after the loop on fallback); selecting the
capacity first and formatting once is the same computation. -/
def planningFormat (conf : Config) (p : PrinterKind) (names : List Entry) :
    Option (List (List Cell)) :=
  match planRowCap conf p names with
  | none => none
  | some cap => format_as_rows conf p names cap

/-- The `rows` local of `NaiveFormatter::format` (main.rs lines 458-459):
`config.max_width / (max_width(config, names) + 2)`. -/
def naiveRowCap (conf : Config) (p : PrinterKind) (names : List Entry) : Nat :=
  conf.maxWidth / (max_width p names + 2)

/-- Embeds `NaiveFormatter::format` (main.rs lines 456-461). -/
def naiveFormat (conf : Config) (p : PrinterKind) (names : List Entry) :
    Option (List (List Cell)) :=
  format_as_rows conf p names (naiveRowCap conf p names)

/-- Embeds the grid production of `run` (main.rs lines 464-482): the
entries are passed to the selected formatter in the order the directory
enumeration supplied them; `run` performs no sort (the `Ord` instance of
`Entry` at main.rs lines 241-245 is never invoked). -/
def runGrid (conf : Config) (p : PrinterKind) (useNaive : Bool)
    (entries : List Entry) : Option (List (List Cell)) :=
  if useNaive then naiveFormat conf p entries
  else planningFormat conf p entries

/-- The property asserted by the search-planner claim: a returned
capacity is either a candidate in the searched descending range that
passes the validity check while every larger candidate in the range
fails it, or the `min_rows` fallback after every candidate failed. -/
def plannerChoiceSpec (conf : Config) (p : PrinterKind) (names : List Entry)
    (cap : Nat) : Prop :=
  (min_rows conf p names < cap ∧ cap ≤ max_rows conf ∧
     is_valid_as_rows conf p names cap = some true ∧
     ∀ c : Nat, c < max_rows conf + 1 → cap < c →
       is_valid_as_rows conf p names c = some false)
  ∨ (cap = min_rows conf p names ∧
     ∀ c : Nat, c < max_rows conf + 1 → min_rows conf p names < c →
       is_valid_as_rows conf p names c = some false)

/-- A configuration with empty icon tables and the given terminal width;
the tables are irrelevant to the layout engine. -/
def mkConf (w : Nat) : Config := ⟨[], [], [], [], [], w⟩

/-- A fixed attribute used by the concrete layout test entries. -/
def attr0 : Attr := ⟨[ 'i' ], ColorType.UnrecognizedFile⟩

/-- An entry whose path and file name are the given string. -/
def mkEntry (s : String) : Entry := ⟨s.toList, s.toList, attr0⟩

def conf4 : Config := mkConf 4

def conf10 : Config := mkConf 10

def conf16 : Config := mkConf 16

def conf40 : Config := mkConf 40

/-- A configuration exercising the alias tables: `"jpg"` has an icon,
`"jpeg"` is an alias of `"jpg"`, `"md2"` is an alias of `"md3"`, and
`"md3"` is itself only an alias (of `"txt"`), not a direct entry. -/
def conf7 : Config :=
  ⟨[ ( "jpg".toList, "J".toList ), ( "file".toList, "F".toList ) ],
   [ ( "jpeg".toList, "jpg".toList ), ( "md2".toList, "md3".toList ),
     ( "md3".toList, "txt".toList ) ],
   [], [], [], 80⟩

def names3 : List Entry := [ mkEntry "ab", mkEntry "cd", mkEntry "ef" ]

def namesWide : List Entry := [ mkEntry "aaaaaaaa", mkEntry "bbbbbbbb" ]

def entryA : Entry := mkEntry "a"

def entryB : Entry := mkEntry "b"

/-- The loop of `as_rows` processed from an arbitrary position inside a
chunk: starting at absolute index `m * cap + j` with `j` elements already
in the pending row, the loop emits nothing when fewer than `cap - j`
elements remain (the pending row is dropped), and otherwise completes the
current chunk and continues at the next chunk boundary. -/
theorem asRowsGo_gen {α : Type _} (cap : Nat) (hcap : 0 < cap) :
    ∀ (xs row : List α) (m j : Nat), j < cap →
      asRowsGo cap (m * cap + j) row xs =
        if xs.length + j < cap then []
        else (row ++ xs.take (cap - j)) ::
          asRowsGo cap ((m + 1) * cap) [] (xs.drop (cap - j)) := by
  intro xs
  induction xs with
  | nil =>
    intro row m j hj
    rw [if_pos (by simp only [List.length_nil]; omega)]
    rfl
  | cons x xs ih =>
    intro row m j hj
    have hmod : (m * cap + j) % cap = j := by
      rw [Nat.mul_comm m cap, Nat.mul_add_mod]
      exact Nat.mod_eq_of_lt hj
    by_cases hlast : j = cap - 1
    · have hstep : m * cap + j + 1 = (m + 1) * cap := by
        rw [Nat.succ_mul]
        omega
      simp only [asRowsGo, hmod]
      rw [if_pos hlast, hstep]
      rw [if_neg (show ¬ ((x :: xs).length + j < cap) by
        simp only [List.length_cons]; omega)]
      have h1 : cap - j = 1 := by omega
      rw [h1]
      simp
    · simp only [asRowsGo, hmod]
      rw [if_neg hlast]
      have hidx : m * cap + j + 1 = m * cap + (j + 1) := by omega
      rw [hidx, ih (row ++ [x]) m (j + 1) (by omega)]
      by_cases hsm : xs.length + (j + 1) < cap
      · rw [if_pos hsm,
          if_pos (show (x :: xs).length + j < cap by
            simp only [List.length_cons]; omega)]
      · rw [if_neg hsm,
          if_neg (show ¬ ((x :: xs).length + j < cap) by
            simp only [List.length_cons]; omega)]
        have hc1 : cap - j = (cap - (j + 1)) + 1 := by omega
        rw [hc1, List.take_succ_cons, List.drop_succ_cons, List.append_assoc]
        rfl

/-- Concatenating the rows produced by the `as_rows` loop recovers the
longest prefix of the input whose length is a multiple of the capacity:
the input order is preserved and the final partial chunk is dropped. -/
theorem asRowsGo_flatten {α : Type _} (cap : Nat) (hcap : 0 < cap) :
    ∀ (fuel : Nat) (xs : List α) (m : Nat), xs.length ≤ fuel →
      (asRowsGo cap (m * cap) [] xs).flatten =
        xs.take (cap * (xs.length / cap)) := by
  intro fuel
  induction fuel with
  | zero =>
    intro xs m hlen
    have hx : xs = [] := List.length_eq_zero.mp (Nat.le_zero.mp hlen)
    subst hx
    simp [asRowsGo]
  | succ n ih =>
    intro xs m hlen
    have hgen := asRowsGo_gen cap hcap xs [] m 0 hcap
    rw [Nat.add_zero] at hgen
    by_cases hsm : xs.length < cap
    · rw [hgen, if_pos (by omega)]
      have hdiv : xs.length / cap = 0 := Nat.div_eq_of_lt hsm
      rw [hdiv]
      simp
    · rw [hgen, if_neg (by omega)]
      simp only [List.flatten_cons, List.nil_append, Nat.sub_zero]
      rw [ih (xs.drop cap) (m + 1) (by rw [List.length_drop]; omega)]
      rw [List.length_drop]
      have hdiv : xs.length / cap = (xs.length - cap) / cap + 1 :=
        Nat.div_eq_sub_div hcap (by omega)
      rw [hdiv, Nat.mul_add, Nat.mul_one,
        Nat.add_comm (cap * ((xs.length - cap) / cap)) cap]
      rw [List.take_add]

/-- Soundness of the candidate loop over a descending range: a returned
capacity is either an element of the range that validated while every
larger element validated to false, or the fallback `minR` with every
element of the range validating to false. -/
theorem planLoop_spec (valid : Nat → Option Bool) (minR lo : Nat) :
    ∀ (n cap : Nat), planLoop valid minR (descRangeAux lo n) = some cap →
      ((lo < cap ∧ cap ≤ lo + n ∧ valid cap = some true ∧
          ∀ c : Nat, cap < c → c ≤ lo + n → valid c = some false)
       ∨ (cap = minR ∧
          ∀ c : Nat, lo < c → c ≤ lo + n → valid c = some false)) := by
  intro n
  induction n with
  | zero =>
    intro cap h
    simp only [descRangeAux, planLoop] at h
    right
    refine ⟨(Option.some.inj h).symm, ?_⟩
    intro c h1 h2
    omega
  | succ n ih =>
    intro cap h
    have hd : descRangeAux lo (n + 1) = (lo + (n + 1)) :: descRangeAux lo n := rfl
    rw [hd] at h
    rcases hv : valid (lo + (n + 1)) with _ | b
    · simp only [planLoop, hv] at h
      exact Option.noConfusion h
    · cases b
      · have h' : planLoop valid minR (descRangeAux lo n) = some cap := by
          simp only [planLoop, hv] at h
          exact h
        rcases ih cap h' with ⟨h1, h2, h3, h4⟩ | ⟨h1, h2⟩
        · left
          refine ⟨h1, by omega, h3, ?_⟩
          intro c hc1 hc2
          by_cases hce : c = lo + (n + 1)
          · rw [hce]; exact hv
          · exact h4 c hc1 (by omega)
        · right
          refine ⟨h1, ?_⟩
          intro c hc1 hc2
          by_cases hce : c = lo + (n + 1)
          · rw [hce]; exact hv
          · exact h2 c hc1 (by omega)
      · have hcap : lo + (n + 1) = cap := by
          simp only [planLoop, hv] at h
          exact Option.some.inj h
        left
        refine ⟨by omega, by omega, ?_, ?_⟩
        · rw [← hcap]; exact hv
        · intro c hc1 hc2
          omega

/-- C1: the claim states that for every entry list and every row capacity
at least 1 the rendered grid contains every entry exactly once, with only
the last row possibly shorter. The code violates this: `as_rows` never
flushes its final partial row, so when the entry count is not a multiple
of the capacity the remainder entries are silently dropped. At the
concrete failing input of three elements and capacity 2, `as_rows`
returns a single full row of 2 cells and `format_as_rows` renders a grid
of 2 cells from 3 entries. -/
theorem C1_as_rows_drops_remainder :
    as_rows ([ 1, 2, 3 ] : List Nat) 2 = some [ [ 1, 2 ] ] ∧
    (format_as_rows conf10 PrinterKind.short
        [ mkEntry "a", mkEntry "b", mkEntry "c" ] 2).map
      (fun g => g.flatten.length) = some 2 := by decide

/-- C2: when the search planner returns a row capacity, that capacity is
either a candidate of the descending range from `max_rows` (terminal
width / 5) down to just above `min_rows` (terminal width / (max predicted
width + 1)) whose per-column width sum is strictly below the terminal
width while every larger candidate fails the check, or it is the
`min_rows` fallback after every candidate failed. (The source range
excludes `min_rows` itself, but the returned capacity is `min_rows` in
either reading, via the unconditional fallback.) -/
theorem C2_planner_choice (conf : Config) (p : PrinterKind) (names : List Entry)
    (cap : Nat) (h : planRowCap conf p names = some cap) :
    plannerChoiceSpec conf p names cap := by
  unfold planRowCap descRange at h
  have hs := planLoop_spec (is_valid_as_rows conf p names) (min_rows conf p names)
    (min_rows conf p names) (max_rows conf - min_rows conf p names) cap h
  rcases hs with ⟨h1, h2, h3, h4⟩ | ⟨h1, h2⟩
  · left
    refine ⟨h1, by omega, h3, ?_⟩
    intro c hc1 hc2
    exact h4 c hc2 (by omega)
  · right
    refine ⟨h1, ?_⟩
    intro c hc1 hc2
    exact h2 c hc2 (by omega)

/-- Witness for C2 at a concrete input: three 2-character entries at
terminal width 16; the planner picks capacity 3 (column sum 15 < 16). -/
theorem C2_planner_choice_witness :
    plannerChoiceSpec conf16 PrinterKind.short names3 3 :=
  C2_planner_choice conf16 PrinterKind.short names3 3 (by decide)

/-- C3: the claim states the planner always terminates with a capacity
at least 1 and the validity checks never fail for a non-empty entry set
at terminal width at least 5. The code violates this: with a single
3-character entry at width 40, the first candidate capacity is 8, which
exceeds the entry count, so `as_rows` yields no complete row and
`is_valid` indexes `out[0]` on an empty vector — a panic, modelled as
`none`. -/
theorem C3_planner_small_set_fails :
    MIN_FORMAT_ENTRY_LENGTH ≤ conf40.maxWidth ∧
    planRowCap conf40 PrinterKind.short [ mkEntry "abc" ] = none ∧
    planningFormat conf40 PrinterKind.short [ mkEntry "abc" ] = none := by decide

/-- C4: the claim states that an empty entry list degrades to an empty
grid without failure. The code violates this: both formatters call
`format_as_rows`, which indexes `rows[0]` on the empty row list produced
by `as_rows` of an empty entry list — a panic, modelled as `none`. -/
theorem C4_empty_entries_fail :
    planningFormat conf40 PrinterKind.short [] = none ∧
    planningFormat conf40 PrinterKind.long [] = none ∧
    naiveFormat conf40 PrinterKind.short [] = none ∧
    naiveFormat conf40 PrinterKind.long [] = none := by decide

/-- C5: the claim states that entries wider than the terminal are
rendered as overflowing rows without failure via the `min_rows` fallback.
The code violates this: with every entry predicted wider than the
terminal, `min_rows = terminal / (width + 1) = 0`, every candidate fails
the validity check, and the fallback calls `format_as_rows` with row
capacity 0, where `as_rows` divides by zero — a panic, modelled as
`none`. -/
theorem C5_oversize_fallback_fails :
    conf10.maxWidth < max_width PrinterKind.short namesWide ∧
    min_rows conf10 PrinterKind.short namesWide = 0 ∧
    planRowCap conf10 PrinterKind.short namesWide = some 0 ∧
    planningFormat conf10 PrinterKind.short namesWide = none := by decide

/-- C6: the display-width predictor returns `strlen(file name) + 3` in
short mode and `strlen(rendered path) + 2` in long mode, where `strlen`
counts grapheme clusters: the repository's own `strlen` test values hold
(".local" counts 6; prefixing a decomposed a-with-candrabindu or an icon
glyph adds exactly 1), a combining-accent pair counts as 1, and an icon
glyph with a variation selector counts as 1. -/
theorem C6_predict_grapheme_widths :
    (∀ e : Entry, printerPredict PrinterKind.short e = strlen (short_name e) + 3) ∧
    (∀ e : Entry, printerPredict PrinterKind.long e = strlen e.path + 2) ∧
    strlen ( ".local".toList ) = 6 ∧
    strlen ('a' :: '̐' :: ( ".local".toList )) = 7 ∧
    strlen ('' :: ( ".local".toList )) = 7 ∧
    strlen [ 'a', '̐' ] = 1 ∧
    strlen [ '', '️' ] = 1 := by
  refine ⟨fun e => rfl, fun e => rfl, ?_, ?_, ?_, ?_, ?_⟩ <;> decide

/-- C7: a key the file-alias table maps to `t` resolves to exactly the
Attr of a direct `get_file_attr` lookup of `t`; the indirection is one
hop only — the alias of `t` is never consulted, so when `t` is absent
from the direct file table the result is the default `"file"` attribute,
even when `t` is itself an alias. -/
theorem C7_alias_one_hop (conf : Config) (k t : List Char)
    (h : conf.file_aliases.lookup k = some t) :
    get_file_attr_alias conf k = get_file_attr conf t ∧
    (conf.files.lookup t = none →
      get_file_attr_alias conf k = defaultFileAttr conf) := by
  have h1 : get_file_attr_alias conf k = get_file_attr conf t := by
    unfold get_file_attr_alias
    rw [h]
  refine ⟨h1, ?_⟩
  intro hmiss
  rw [h1]
  unfold get_file_attr
  rw [hmiss]

/-- Witness for C7: in `conf7`, the alias `"jpeg" → "jpg"` resolves as a
direct `"jpg"` lookup, and the alias `"md2" → "md3"`, whose target is
itself only an alias, is not chased further: `"md3"` resolves through the
direct table to the default file attribute. -/
theorem C7_alias_one_hop_witness :
    (get_file_attr_alias conf7 ( "jpeg".toList ) =
        get_file_attr conf7 ( "jpg".toList ) ∧
      (conf7.files.lookup ( "jpg".toList ) = none →
        get_file_attr_alias conf7 ( "jpeg".toList ) = defaultFileAttr conf7)) ∧
    (get_file_attr_alias conf7 ( "md2".toList ) =
        get_file_attr conf7 ( "md3".toList ) ∧
      (conf7.files.lookup ( "md3".toList ) = none →
        get_file_attr_alias conf7 ( "md2".toList ) = defaultFileAttr conf7)) :=
  ⟨C7_alias_one_hop conf7 ( "jpeg".toList ) ( "jpg".toList ) (by decide),
   C7_alias_one_hop conf7 ( "md2".toList ) ( "md3".toList ) (by decide)⟩

/-- Counterexample to C8: the claim says that for a file name with no
extension only a leading dot is removed to form the lookup key. The code
removes the first character unconditionally: the extension-less name
"Makefile" gets the key "akefile", not "Makefile". -/
theorem C8_first_char_removed_counterexample :
    fileKey ( "Makefile".toList ) = some ( "akefile".toList ) ∧
    fileKey ( "Makefile".toList ) ≠ some ( "Makefile".toList ) ∧
    get_attr conf7 ⟨ "Makefile".toList, false⟩ =
      get_file_attr_alias conf7 ( "akefile".toList ) := by decide

/-- C8 as amended: the lookup key is the extension when one exists;
when the file name has no extension the key is the file name with its
first character removed — which strips exactly the leading dot for a
dotfile with no further dot, such as ".bashrc" resolving with key
"bashrc". -/
theorem C8_amended_lookup_key :
    (∀ (f e : List Char), extension f = some e → fileKey f = some e) ∧
    (∀ (c : Char) (cs : List Char), extension (c :: cs) = none →
      fileKey (c :: cs) = some cs) ∧
    (∀ cs : List Char, ¬ ('.' ∈ cs) →
      extension ('.' :: cs) = none ∧ fileKey ('.' :: cs) = some cs) := by
  refine ⟨?_, ?_, ?_⟩
  · intro f e h
    cases f with
    | nil =>
      rw [show extension ([] : List Char) = none from rfl] at h
      exact Option.noConfusion h
    | cons c cs =>
      show some ((extension (c :: cs)).getD cs) = some e
      rw [h]
      rfl
  · intro c cs h
    show some ((extension (c :: cs)).getD cs) = some cs
    rw [h]
    rfl
  · intro cs hdot
    have hne : ('.' :: cs : List Char) ≠ [ '.', '.' ] := by
      intro hEq
      injection hEq with _ h2
      rw [h2] at hdot
      exact hdot (by simp)
    have hext : extension ('.' :: cs) = none := by
      show (if ('.' :: cs : List Char) = [ '.', '.' ] then none
            else if '.' = '.' ∧ ¬ ('.' ∈ cs) then none
            else afterLastDot ('.' :: cs)) = none
      rw [if_neg hne, if_pos ⟨rfl, hdot⟩]
    refine ⟨hext, ?_⟩
    show some ((extension ('.' :: cs)).getD cs) = some cs
    rw [hext]
    rfl

/-- Witness for C8 as amended, at concrete inputs: "a.rs" keys on its
extension "rs", and the dotfile ".bashrc" keys on "bashrc". -/
theorem C8_amended_lookup_key_witness :
    fileKey ( "a.rs".toList ) = some ( "rs".toList ) ∧
    extension ('.' :: ( "bashrc".toList )) = none ∧
    fileKey ('.' :: ( "bashrc".toList )) = some ( "bashrc".toList ) :=
  ⟨C8_amended_lookup_key.1 ( "a.rs".toList ) ( "rs".toList ) (by decide),
   (C8_amended_lookup_key.2.2 ( "bashrc".toList ) (by decide)).1,
   (C8_amended_lookup_key.2.2 ( "bashrc".toList ) (by decide)).2⟩

/-- Counterexample to C9: the claim says the grid presents entries in
sorted path order for every input enumeration order. The code never
sorts (the `Ord` instance of `Entry` is unused by `run`), so the two
enumeration orders of entries "a" and "b" yield different grids, the
grid following the input order — here "b" before "a". -/
theorem C9_not_sorted_counterexample :
    runGrid conf10 PrinterKind.short false [ entryB, entryA ] ≠
      runGrid conf10 PrinterKind.short false [ entryA, entryB ] ∧
    runGrid conf10 PrinterKind.short false [ entryB, entryA ] =
      some [ [ ⟨[ 'i' ], RealColor.Grey, [ 'b', ' ' ]⟩,
              ⟨[ 'i' ], RealColor.Grey, [ 'a', ' ' ]⟩ ] ] := by decide

/-- C9 as amended: layout is deterministic (a pure function of the entry
list and configuration), and the grid presents entries in input
enumeration order, not sorted order: the rows produced by `as_rows`
concatenate to the longest prefix of the input list that fills complete
rows, in input order. -/
theorem C9_grid_input_order {α : Type _} (names : List α) (cap : Nat)
    (rows : List (List α)) (h : as_rows names cap = some rows) :
    rows.flatten = names.take (cap * (names.length / cap)) := by
  unfold as_rows at h
  by_cases hc : cap = 0
  · rw [if_pos hc] at h
    exact Option.noConfusion h
  · rw [if_neg hc] at h
    have h2 : asRowsGo cap 0 [] names = rows := Option.some.inj h
    have hcap : 0 < cap := Nat.pos_of_ne_zero hc
    have h3 := asRowsGo_flatten cap hcap names.length names 0 (Nat.le_refl _)
    rw [Nat.zero_mul] at h3
    rw [← h2]
    exact h3

/-- Witness for C9 as amended at a concrete input: partitioning
`[1, 2, 3]` with capacity 2 yields rows flattening to the prefix
`[1, 2]`. -/
theorem C9_grid_input_order_witness :
    ([ [ 1, 2 ] ] : List (List Nat)).flatten =
      ([ 1, 2, 3 ] : List Nat).take (2 * (([ 1, 2, 3 ] : List Nat).length / 2)) :=
  C9_grid_input_order [ 1, 2, 3 ] 2 [ [ 1, 2 ] ] (by decide)

/-- Counterexample to C10: the claim says the naive formatter's row
capacity is at least 1 for every terminal width. At terminal width 4
with one 1-character entry (predicted width 4), the capacity is
4 / (4 + 2) = 0 and the subsequent `as_rows` call divides by zero —
a panic, modelled as `none`. -/
theorem C10_zero_capacity_counterexample :
    naiveRowCap conf4 PrinterKind.short [ entryA ] = 0 ∧
    naiveFormat conf4 PrinterKind.short [ entryA ] = none := by decide

/-- C10 as amended: whenever the terminal width is at least the maximum
predicted entry width plus 2, the naive formatter's row capacity is at
least 1, so the partition into rows performs no division by zero. -/
theorem C10_amended_capacity_positive (conf : Config) (p : PrinterKind)
    (names : List Entry) (h : max_width p names + 2 ≤ conf.maxWidth) :
    1 ≤ naiveRowCap conf p names ∧
    (as_rows names (naiveRowCap conf p names)).isSome = true := by
  have h1 : 1 ≤ naiveRowCap conf p names := by
    unfold naiveRowCap
    exact (Nat.one_le_div_iff (by omega)).mpr h
  refine ⟨h1, ?_⟩
  unfold as_rows
  rw [if_neg (by omega)]
  rfl

/-- Witness for C10 as amended: one 1-character entry at terminal width
40 gives capacity 40 / 6 = 6 ≥ 1 and a successful partition. -/
theorem C10_amended_capacity_positive_witness :
    1 ≤ naiveRowCap conf40 PrinterKind.short [ entryA ] ∧
    (as_rows [ entryA ]
      (naiveRowCap conf40 PrinterKind.short [ entryA ])).isSome = true :=
  C10_amended_capacity_positive conf40 PrinterKind.short [ entryA ] (by decide)

end ColorLs
